import Mathlib

/-!
Shallow embedding of `src/optim/solver.py` (repository Fertilizantes).

The script is a straight-line pipeline: load three CSV tables, validate
columns, run a feasibility precheck, build one linear program, solve it,
and write a dose table plus an integer cost summary.  Machine reals are
modelled as `ℚ`; the CBC solve call is abstracted as an oracle that
receives the objective terms and the constraint list built by the script.
-/

deriving instance DecidableEq for Except

namespace Fertilizantes

/-- A row of `productos.csv` after numeric sanitisation (solver.py lines 79-84):
nutrient percentages, price per ton (CLP), and per-hectare dose bounds. -/
structure Product where
  nPct : ℚ
  pPct : ℚ
  kPct : ℚ
  precio : ℚ
  dmin : ℚ
  dmax : ℚ
deriving DecidableEq

/-- A row of `potreros.csv`: field identifier, crop name, surface in hectares. -/
structure Field where
  name : String
  cultivo : String
  superficie : ℚ
deriving DecidableEq

/-- A row of `requerimientos.csv`, keyed by crop: the three nutrient
requirements in kg/ha. -/
structure Req where
  nReq : ℚ
  pReq : ℚ
  kReq : ℚ
deriving DecidableEq

/-- The loaded tables together with the command line arguments of solver.py
(lines 20-28): `nmax`, `mixmax`, `tol`, `costoap`. -/
structure Cfg where
  potreros : List Field
  reqs : List (String × Req)
  prods : List (String × Product)
  nmax : ℚ
  mixmax : ℚ
  tol : ℚ
  costoap : ℚ
deriving DecidableEq

/-- `reqs.loc[cult, ...]` : lookup of a crop in the requirement table
(`reqs` was indexed by `cultivo`, line 59). -/
def lookupReq (cfg : Cfg) (c : String) : Option Req :=
  (cfg.reqs.find? (fun e => e.1 == c)).map (fun e => e.2)

/-- The diagnostics printed by solver.py, abstracted from their formatted
strings to the data they carry. -/
inductive Diag where
  | missingCol (table col : String)
  | minMix (field : String)
  | nInf (field : String)
  | pInf (field : String)
  | kInf (field : String)
  | unknownCrop (field crop : String)
  | nonOptimal (status : String)
deriving DecidableEq

/-- `true` exactly on the minimum-dose-sum diagnostic of the precheck
(solver.py line 124). -/
def Diag.isMinMix : Diag → Bool
  | .minMix _ => true
  | _ => false

/-- How a run of solver.py fails: an uncaught Python exception
(traceback, exit code 1) or printed diagnostics followed by `sys.exit(2)`. -/
inductive Failure where
  | exc (msg : String)
  | fatal (ds : List Diag)
deriving DecidableEq

/-- `pandas.Series.max()` of a list of values, with the script's guard
`... if len(v) else 0.0` folded in for the empty case (lines 132-134). -/
def listMax : List ℚ → ℚ
  | [] => 0
  | [a] => a
  | a :: b :: t => max a (listMax (b :: t))

/-- `min_mix_total = dmin.sum()` (solver.py line 111). -/
def dminSum (cfg : Cfg) : ℚ := (cfg.prods.map (fun ip => ip.2.dmin)).sum

/-- `(dmax * Nv).sum()` (solver.py line 127). -/
def maxN_dmax (cfg : Cfg) : ℚ :=
  (cfg.prods.map (fun ip => ip.2.dmax * (ip.2.nPct / 100))).sum

/-- `(dmax * Pv).sum()` (solver.py line 128). -/
def maxP_dmax (cfg : Cfg) : ℚ :=
  (cfg.prods.map (fun ip => ip.2.dmax * (ip.2.pPct / 100))).sum

/-- `(dmax * Kv).sum()` (solver.py line 129). -/
def maxK_dmax (cfg : Cfg) : ℚ :=
  (cfg.prods.map (fun ip => ip.2.dmax * (ip.2.kPct / 100))).sum

/-- `Nv.max() if len(Nv) else 0.0` (solver.py line 132). -/
def maxFracN (cfg : Cfg) : ℚ := listMax (cfg.prods.map (fun ip => ip.2.nPct / 100))

/-- `Pv.max() if len(Pv) else 0.0` (solver.py line 133). -/
def maxFracP (cfg : Cfg) : ℚ := listMax (cfg.prods.map (fun ip => ip.2.pPct / 100))

/-- `Kv.max() if len(Kv) else 0.0` (solver.py line 134). -/
def maxFracK (cfg : Cfg) : ℚ := listMax (cfg.prods.map (fun ip => ip.2.kPct / 100))

/-- `maxN` after the mix-capacity tightening (solver.py lines 131-136);
the `mix_cap = inf` branch is folded into the conditional. -/
def mixBoundN (cfg : Cfg) : ℚ :=
  if 0 < cfg.mixmax then min (maxN_dmax cfg) (cfg.mixmax * maxFracN cfg)
  else maxN_dmax cfg

/-- `maxP` after the mix-capacity tightening (solver.py lines 131-136). -/
def mixBoundP (cfg : Cfg) : ℚ :=
  if 0 < cfg.mixmax then min (maxP_dmax cfg) (cfg.mixmax * maxFracP cfg)
  else maxP_dmax cfg

/-- `maxK` after the mix-capacity tightening (solver.py lines 131-136). -/
def mixBoundK (cfg : Cfg) : ℚ :=
  if 0 < cfg.mixmax then min (maxK_dmax cfg) (cfg.mixmax * maxFracK cfg)
  else maxK_dmax cfg

/-- `maxN` after the additional nitrogen-ceiling clamp (solver.py
lines 138-139); only the nitrogen bound receives it. -/
def maxNBound (cfg : Cfg) : ℚ :=
  if 0 < cfg.nmax then min (mixBoundN cfg) cfg.nmax else mixBoundN cfg

/-- The body of the per-field loop of `precheck_factibilidad`
(solver.py lines 112-146), given the looked-up requirement `r`:
the list of diagnostics this field contributes, in program order. -/
def precheckField (cfg : Cfg) (f : Field) (r : Req) : List Diag :=
  (if 0 < cfg.mixmax ∧ dminSum cfg - 1 / 1000000000 > cfg.mixmax
   then [Diag.minMix f.name] else []) ++
  (if (1 - cfg.tol) * r.nReq - 1 / 1000000 > maxNBound cfg
   then [Diag.nInf f.name] else []) ++
  (if (1 - cfg.tol) * r.pReq - 1 / 1000000 > mixBoundP cfg
   then [Diag.pInf f.name] else []) ++
  (if (1 - cfg.tol) * r.kReq - 1 / 1000000 > mixBoundK cfg
   then [Diag.kInf f.name] else [])

/-- `precheck_factibilidad` (solver.py lines 103-148) over a field list.
The crop lookups `reqs.loc[cult, ...]` (lines 116-118) raise an uncaught
`KeyError` when the crop is absent, which discards every message gathered
so far; otherwise the per-field diagnostics are accumulated in order. -/
def precheckAux (cfg : Cfg) : List Field → Except Failure (List Diag)
  | [] => .ok []
  | f :: fs =>
    match lookupReq cfg f.cultivo with
    | none => .error (.exc ("KeyError: " ++ f.cultivo))
    | some r =>
      match precheckAux cfg fs with
      | .error e => .error e
      | .ok ds => .ok (precheckField cfg f r ++ ds)

/-- Comparison sense of a linear constraint. -/
inductive Cmp where
  | ge
  | le
deriving DecidableEq

/-- One linear constraint added to the PuLP problem: terms are
(variable index, coefficient) pairs over variables `x[(producto, potrero)]`. -/
structure Constr where
  terms : List ((String × String) × ℚ)
  sense : Cmp
  rhs : ℚ
deriving DecidableEq

/-- Value of a linear expression under an assignment of the decision
variables `x[(i, p)]`. -/
def evalLin (x : String → String → ℚ) (ts : List ((String × String) × ℚ)) : ℚ :=
  (ts.map (fun t => t.2 * x t.1.1 t.1.2)).sum

/-- Boolean satisfaction of one constraint. -/
def satB (x : String → String → ℚ) (c : Constr) : Bool :=
  match c.sense with
  | .ge => decide (c.rhs ≤ evalLin x c.terms)
  | .le => decide (evalLin x c.terms ≤ c.rhs)

/-- Satisfaction of one constraint. -/
def sat (x : String → String → ℚ) (c : Constr) : Prop := satB x c = true

/-- `lpSum(x[(i, p)] * N[i] for i in productos)` as constraint terms,
for field `p` (solver.py lines 189, 197). -/
def termsN (cfg : Cfg) (p : String) : List ((String × String) × ℚ) :=
  cfg.prods.map (fun ip => ((ip.1, p), ip.2.nPct / 100))

/-- `lpSum(x[(i, p)] * P[i] for i in productos)` as constraint terms (line 190). -/
def termsP (cfg : Cfg) (p : String) : List ((String × String) × ℚ) :=
  cfg.prods.map (fun ip => ((ip.1, p), ip.2.pPct / 100))

/-- `lpSum(x[(i, p)] * K[i] for i in productos)` as constraint terms (line 191). -/
def termsK (cfg : Cfg) (p : String) : List ((String × String) × ℚ) :=
  cfg.prods.map (fun ip => ((ip.1, p), ip.2.kPct / 100))

/-- `lpSum(x[(i, p)] for i in productos)` as constraint terms (line 194). -/
def termsOne (cfg : Cfg) (p : String) : List ((String × String) × ℚ) :=
  cfg.prods.map (fun ip => ((ip.1, p), 1))

/-- The constraints added for one field by the loop body of solver.py
lines 184-201, in program order: three nutrient sufficiency constraints,
the optional mix-capacity and nitrogen-ceiling constraints, and the two
dose bounds per product. -/
def buildField (cfg : Cfg) (f : Field) (r : Req) : List Constr :=
  [⟨termsN cfg f.name, Cmp.ge, (1 - cfg.tol) * r.nReq⟩,
   ⟨termsP cfg f.name, Cmp.ge, (1 - cfg.tol) * r.pReq⟩,
   ⟨termsK cfg f.name, Cmp.ge, (1 - cfg.tol) * r.kReq⟩] ++
  (if 0 < cfg.mixmax then [⟨termsOne cfg f.name, Cmp.le, cfg.mixmax⟩] else []) ++
  (if 0 < cfg.nmax then [⟨termsN cfg f.name, Cmp.le, cfg.nmax⟩] else []) ++
  cfg.prods.flatMap (fun ip =>
    [⟨[((ip.1, f.name), 1)], Cmp.ge, ip.2.dmin⟩,
     ⟨[((ip.1, f.name), 1)], Cmp.le, ip.2.dmax⟩])

/-- The constraint-construction loop of solver.py lines 178-201: for each
field, an unknown crop aborts with the printed error of lines 181-182,
otherwise the per-field constraints are appended. -/
def buildAux (cfg : Cfg) : List Field → Except Failure (List Constr)
  | [] => .ok []
  | f :: fs =>
    match lookupReq cfg f.cultivo with
    | none => .error (.fatal [Diag.unknownCrop f.name f.cultivo])
    | some r =>
      match buildAux cfg fs with
      | .error e => .error e
      | .ok cs => .ok (buildField cfg f r ++ cs)

/-- Objective terms of solver.py lines 165-175: product cost plus the
application cost when `costoap > 0`. -/
def objTerms (cfg : Cfg) : List ((String × String) × ℚ) :=
  cfg.prods.flatMap (fun ip => cfg.potreros.map
    (fun f => ((ip.1, f.name), f.superficie * (ip.2.precio / 1000)))) ++
  (if 0 < cfg.costoap then
    cfg.prods.flatMap (fun ip => cfg.potreros.map
      (fun f => ((ip.1, f.name), f.superficie * (cfg.costoap / 1000))))
   else [])

/-- Outcome of the abstracted CBC solve call (solver.py line 206):
either an optimal assignment of the decision variables or a non-optimal
status string. -/
inductive SolverOut where
  | optimal (x : String → String → ℚ)
  | nonOptimal (status : String)

/-- Banker's rounding to an integer, the rounding of Python's `round`. -/
def roundHalfEven (q : ℚ) : ℤ :=
  let f := ⌊q⌋
  if q - f < 1 / 2 then f
  else if 1 / 2 < q - f then f + 1
  else if f % 2 = 0 then f else f + 1

/-- Python `round(v, 2)` (solver.py line 220). -/
def pyRound2 (q : ℚ) : ℚ := (roundHalfEven (q * 100) : ℚ) / 100

/-- Python `int(round(v, 0))` (solver.py line 234). -/
def pyRoundInt (q : ℚ) : ℤ := roundHalfEven q

/-- A row of `resultados_dosis.csv`. -/
structure Row where
  potrero : String
  producto : String
  kg_ha : ℚ
deriving DecidableEq

/-- The emitted dose table (solver.py lines 215-220): doses above 1e-6,
rounded to two decimals, in the loop order of the script (the subsequent
`sort_values` permutes rows and is irrelevant to the sums below). -/
def rowsOut (cfg : Cfg) (x : String → String → ℚ) : List Row :=
  cfg.prods.flatMap (fun ip =>
    (cfg.potreros.filter (fun f => decide (1 / 1000000 < x ip.1 f.name))).map
      (fun f => ⟨f.name, ip.1, pyRound2 (x ip.1 f.name)⟩))

/-- The cost contribution of one (product, field) pair in the summary
recomputation (solver.py lines 230-232). -/
def pairCost (cfg : Cfg) (pr : Product) (f : Field) (v : ℚ) : ℚ :=
  v * f.superficie * (pr.precio / 1000) +
    (if 0 < cfg.costoap then v * f.superficie * (cfg.costoap / 1000) else 0)

/-- `costo_total` of solver.py lines 225-232: summed over every pair whose
raw (unrounded) dose is nonzero. -/
def costoTotal (cfg : Cfg) (x : String → String → ℚ) : ℚ :=
  (cfg.prods.map (fun ip =>
    (cfg.potreros.map (fun f =>
      if x ip.1 f.name ≠ 0 then pairCost cfg ip.2 f (x ip.1 f.name) else 0)).sum)).sum

/-- The integer written to the cost summary file (solver.py line 234). -/
def summaryInt (cfg : Cfg) (x : String → String → ℚ) : ℤ :=
  pyRoundInt (costoTotal cfg x)

/-- The two output artifacts of a successful run: the dose table and the
integer of the cost summary. -/
structure Output where
  rows : List Row
  costo : ℤ
deriving DecidableEq

/-- Result extraction (solver.py lines 215-234). -/
def extract (cfg : Cfg) (x : String → String → ℚ) : Output :=
  ⟨rowsOut cfg x, summaryInt cfg x⟩

/-- The post-load part of the script: precheck (abort on diagnostics,
lines 151-156), model construction (lines 161-201), solve, status check
(lines 206-210) and extraction.  Output files are written only on the
`.ok` path, exactly as in the script. -/
def runSolver (cfg : Cfg)
    (solve : List ((String × String) × ℚ) → List Constr → SolverOut) :
    Except Failure Output :=
  match precheckAux cfg cfg.potreros with
  | .error e => .error e
  | .ok ds =>
    if ds.isEmpty then
      match buildAux cfg cfg.potreros with
      | .error e => .error e
      | .ok cs =>
        match solve (objTerms cfg) cs with
        | .nonOptimal s => .error (.fatal [Diag.nonOptimal s])
        | .optimal x => .ok (extract cfg x)
    else .error (.fatal ds)

/-- The post-normalization column headers of the three input files. -/
structure RawCols where
  potrerosCols : List String
  reqsCols : List String
  prodsCols : List String
deriving DecidableEq

/-- First required column absent from a header list. -/
def firstMissing (required cols : List String) : Option String :=
  required.find? (fun c => !(cols.contains c))

/-- Loading and column validation (solver.py lines 58-76).
`set_index("cultivo")` and `set_index("producto")` run before any
validation (lines 59-60) and raise an uncaught `KeyError` when the key
column is absent; afterwards each table's required columns are checked in
order and the first missing one is reported with `sys.exit(2)`. -/
def loadStage (rc : RawCols) : Except Failure Unit :=
  if !(rc.reqsCols.contains "cultivo") then .error (.exc "KeyError: cultivo")
  else if !(rc.prodsCols.contains "producto") then .error (.exc "KeyError: producto")
  else
    match firstMissing ["potrero", "cultivo", "superficie_ha"] rc.potrerosCols with
    | some c => .error (.fatal [Diag.missingCol "potreros.csv" c])
    | none =>
      match firstMissing ["N_req_kg_ha", "P2O5_req_kg_ha", "K2O_req_kg_ha"] rc.reqsCols with
      | some c => .error (.fatal [Diag.missingCol "requerimientos.csv" c])
      | none =>
        match firstMissing ["N_pct", "P2O5_pct", "K2O_pct", "precio_CLP_ton",
            "dosis_min_kg_ha", "dosis_max_kg_ha"] rc.prodsCols with
        | some c => .error (.fatal [Diag.missingCol "productos.csv" c])
        | none => .ok ()

/-- The whole script: load, then the solver pipeline. -/
def runPipeline (rc : RawCols) (cfg : Cfg)
    (solve : List ((String × String) × ℚ) → List Constr → SolverOut) :
    Except Failure Output :=
  match loadStage rc with
  | .error e => .error e
  | .ok _ => runSolver cfg solve

/-- Header lists containing every required column. -/
def goodCols : RawCols :=
  ⟨["potrero", "cultivo", "superficie_ha"],
   ["cultivo", "N_req_kg_ha", "P2O5_req_kg_ha", "K2O_req_kg_ha"],
   ["producto", "N_pct", "P2O5_pct", "K2O_pct", "precio_CLP_ton",
    "dosis_min_kg_ha", "dosis_max_kg_ha"]⟩

/-- Satisfaction of every constraint of a build result; `False` when the
build itself aborted. -/
def SatAll (x : String → String → ℚ) (e : Except Failure (List Constr)) : Prop :=
  match e with
  | .ok cs => ∀ c ∈ cs, satB x c = true
  | .error _ => False

instance instDecSatAll (x : String → String → ℚ) :
    (e : Except Failure (List Constr)) → Decidable (SatAll x e)
  | .ok cs => List.decidableBAll (fun c => satB x c = true) cs
  | .error _ => isFalse (fun h => h)

/-- A dose assignment satisfying every constraint the script builds for
`cfg` — what the solver contract guarantees of the vector returned by an
Optimal solve. -/
def FeasibleFor (cfg : Cfg) (x : String → String → ℚ) : Prop :=
  SatAll x (buildAux cfg cfg.potreros)

instance instDecFeasibleFor (cfg : Cfg) (x : String → String → ℚ) :
    Decidable (FeasibleFor cfg x) := instDecSatAll x (buildAux cfg cfg.potreros)

/-- Nonnegativity of the decision variables (`lowBound=0`, solver.py line 161). -/
def NonNegOn (cfg : Cfg) (x : String → String → ℚ) : Prop :=
  ∀ ip ∈ cfg.prods, ∀ f ∈ cfg.potreros, 0 ≤ x ip.1 f.name

instance instDecNonNegOn (cfg : Cfg) (x : String → String → ℚ) :
    Decidable (NonNegOn cfg x) := by
  unfold NonNegOn; infer_instance

/-- Realized nitrogen supply on field `p`: `Σ x[(i, p)] * N[i]`. -/
def supplyN (cfg : Cfg) (x : String → String → ℚ) (p : String) : ℚ :=
  (cfg.prods.map (fun ip => x ip.1 p * (ip.2.nPct / 100))).sum

/-- Realized P2O5 supply on field `p`. -/
def supplyP (cfg : Cfg) (x : String → String → ℚ) (p : String) : ℚ :=
  (cfg.prods.map (fun ip => x ip.1 p * (ip.2.pPct / 100))).sum

/-- Realized K2O supply on field `p`. -/
def supplyK (cfg : Cfg) (x : String → String → ℚ) (p : String) : ℚ :=
  (cfg.prods.map (fun ip => x ip.1 p * (ip.2.kPct / 100))).sum

/-- Total dose applied on field `p`. -/
def doseSum (cfg : Cfg) (x : String → String → ℚ) (p : String) : ℚ :=
  (cfg.prods.map (fun ip => x ip.1 p)).sum

/-- Surface of the field named `p`, as a reader of the output CSV would
look it up in `potreros.csv`. -/
def supOf (cfg : Cfg) (p : String) : ℚ :=
  match cfg.potreros.find? (fun f => f.name == p) with
  | some f => f.superficie
  | none => 0

/-- Price of the product named `i`, as a reader would look it up in
`productos.csv`. -/
def precioOf (cfg : Cfg) (i : String) : ℚ :=
  match cfg.prods.find? (fun ip => ip.1 == i) with
  | some ip => ip.2.precio
  | none => 0

/-- Cost of one emitted table row by the objective formula:
dose × area × (price/1000), plus the application term when positive. -/
def rowCost (cfg : Cfg) (r : Row) : ℚ :=
  r.kg_ha * supOf cfg r.potrero * (precioOf cfg r.producto / 1000) +
    (if 0 < cfg.costoap then r.kg_ha * supOf cfg r.potrero * (cfg.costoap / 1000) else 0)

/-- Total cost recomputed from an emitted dose table. -/
def tableCost (cfg : Cfg) (rs : List Row) : ℚ := (rs.map (rowCost cfg)).sum

attribute [local semireducible] Rat.mul Rat.add Rat.sub Rat.inv

theorem evalLin_cons (x : String → String → ℚ) (t : (String × String) × ℚ)
    (ts : List ((String × String) × ℚ)) :
    evalLin x (t :: ts) = t.2 * x t.1.1 t.1.2 + evalLin x ts := by
  simp [evalLin]

theorem sat_ge (x : String → String → ℚ) (ts : List ((String × String) × ℚ)) (r : ℚ)
    (h : satB x ⟨ts, Cmp.ge, r⟩ = true) : r ≤ evalLin x ts := by
  simpa [satB] using h

theorem sat_le (x : String → String → ℚ) (ts : List ((String × String) × ℚ)) (r : ℚ)
    (h : satB x ⟨ts, Cmp.le, r⟩ = true) : evalLin x ts ≤ r := by
  simpa [satB] using h

theorem evalLin_map (x : String → String → ℚ) (p : String) (l : List (String × Product))
    (g : Product → ℚ) :
    evalLin x (l.map (fun ip => ((ip.1, p), g ip.2))) =
      (l.map (fun ip => x ip.1 p * g ip.2)).sum := by
  induction l with
  | nil => rfl
  | cons a t ih =>
    simp only [List.map_cons, evalLin_cons, List.sum_cons]
    rw [ih]; ring

theorem evalLin_termsN (cfg : Cfg) (x : String → String → ℚ) (p : String) :
    evalLin x (termsN cfg p) = supplyN cfg x p := by
  simpa [termsN, supplyN] using evalLin_map x p cfg.prods (fun pr => pr.nPct / 100)

theorem evalLin_termsP (cfg : Cfg) (x : String → String → ℚ) (p : String) :
    evalLin x (termsP cfg p) = supplyP cfg x p := by
  simpa [termsP, supplyP] using evalLin_map x p cfg.prods (fun pr => pr.pPct / 100)

theorem evalLin_termsK (cfg : Cfg) (x : String → String → ℚ) (p : String) :
    evalLin x (termsK cfg p) = supplyK cfg x p := by
  simpa [termsK, supplyK] using evalLin_map x p cfg.prods (fun pr => pr.kPct / 100)

theorem evalLin_termsOne (cfg : Cfg) (x : String → String → ℚ) (p : String) :
    evalLin x (termsOne cfg p) = doseSum cfg x p := by
  simpa [termsOne, doseSum] using evalLin_map x p cfg.prods (fun _ => 1)

theorem evalLin_single (x : String → String → ℚ) (i p : String) :
    evalLin x [((i, p), 1)] = x i p := by
  simp [evalLin]

/-- Every constraint the loop adds for a member field is in the built list. -/
theorem buildAux_mem (cfg : Cfg) :
    ∀ (fs : List Field) (cs : List Constr), buildAux cfg fs = .ok cs →
      ∀ f ∈ fs, ∀ r, lookupReq cfg f.cultivo = some r →
        ∀ c ∈ buildField cfg f r, c ∈ cs := by
  intro fs
  induction fs with
  | nil => intro cs _ f hf; exact absurd hf (List.not_mem_nil f)
  | cons g t ih =>
    intro cs hcs f hf r hr c hc
    unfold buildAux at hcs
    cases hg : lookupReq cfg g.cultivo with
    | none => rw [hg] at hcs; cases hcs
    | some rg =>
      rw [hg] at hcs
      cases ht : buildAux cfg t with
      | error e => rw [ht] at hcs; cases hcs
      | ok cs2 =>
        rw [ht] at hcs
        injection hcs with hcs
        subst hcs
        rcases List.mem_cons.mp hf with rfl | hft
        · have : rg = r := by
            have := hg.symm.trans hr
            exact Option.some.inj this
          subst this
          exact List.mem_append_left _ hc
        · exact List.mem_append_right _ (ih cs2 ht f hft r hr c hc)

/-- **C2.** On every run that reaches an Optimal solve, the returned dose
vector — which satisfies every constraint the script built — meets, for
every field: the three tolerance-relaxed nutrient requirements, the mix
ceiling when positive, the nitrogen ceiling when positive, and each
product's dose bounds. -/
theorem C2_optimal_doses_meet_constraints (cfg : Cfg) (x : String → String → ℚ)
    (hx : FeasibleFor cfg x) :
    ∀ f ∈ cfg.potreros, ∀ r, lookupReq cfg f.cultivo = some r →
      (1 - cfg.tol) * r.nReq ≤ supplyN cfg x f.name ∧
      (1 - cfg.tol) * r.pReq ≤ supplyP cfg x f.name ∧
      (1 - cfg.tol) * r.kReq ≤ supplyK cfg x f.name ∧
      (0 < cfg.mixmax → doseSum cfg x f.name ≤ cfg.mixmax) ∧
      (0 < cfg.nmax → supplyN cfg x f.name ≤ cfg.nmax) ∧
      (∀ ip ∈ cfg.prods, ip.2.dmin ≤ x ip.1 f.name ∧ x ip.1 f.name ≤ ip.2.dmax) := by
  intro f hf r hr
  unfold FeasibleFor SatAll at hx
  cases hcs : buildAux cfg cfg.potreros with
  | error e => rw [hcs] at hx; exact hx.elim
  | ok cs =>
    rw [hcs] at hx
    have hsat : ∀ c ∈ cs, satB x c = true := hx
    have hmem := buildAux_mem cfg cfg.potreros cs hcs f hf r hr
    refine ⟨?_, ?_, ?_, ?_, ?_, ?_⟩
    · have h1 : (⟨termsN cfg f.name, Cmp.ge, (1 - cfg.tol) * r.nReq⟩ : Constr) ∈
          buildField cfg f r := by simp [buildField]
      have := sat_ge x _ _ (hsat _ (hmem _ h1))
      rwa [evalLin_termsN] at this
    · have h1 : (⟨termsP cfg f.name, Cmp.ge, (1 - cfg.tol) * r.pReq⟩ : Constr) ∈
          buildField cfg f r := by simp [buildField]
      have := sat_ge x _ _ (hsat _ (hmem _ h1))
      rwa [evalLin_termsP] at this
    · have h1 : (⟨termsK cfg f.name, Cmp.ge, (1 - cfg.tol) * r.kReq⟩ : Constr) ∈
          buildField cfg f r := by simp [buildField]
      have := sat_ge x _ _ (hsat _ (hmem _ h1))
      rwa [evalLin_termsK] at this
    · intro hmx
      have h1 : (⟨termsOne cfg f.name, Cmp.le, cfg.mixmax⟩ : Constr) ∈
          buildField cfg f r := by simp [buildField, if_pos hmx]
      have := sat_le x _ _ (hsat _ (hmem _ h1))
      rwa [evalLin_termsOne] at this
    · intro hnm
      have h1 : (⟨termsN cfg f.name, Cmp.le, cfg.nmax⟩ : Constr) ∈
          buildField cfg f r := by simp [buildField, if_pos hnm]
      have := sat_le x _ _ (hsat _ (hmem _ h1))
      rwa [evalLin_termsN] at this
    · intro ip hip
      have hlo : (⟨[((ip.1, f.name), 1)], Cmp.ge, ip.2.dmin⟩ : Constr) ∈
          buildField cfg f r := by
        unfold buildField
        refine List.mem_append_right _ (List.mem_flatMap.mpr ⟨ip, hip, ?_⟩)
        simp
      have hhi : (⟨[((ip.1, f.name), 1)], Cmp.le, ip.2.dmax⟩ : Constr) ∈
          buildField cfg f r := by
        unfold buildField
        refine List.mem_append_right _ (List.mem_flatMap.mpr ⟨ip, hip, ?_⟩)
        simp
      have h1 := sat_ge x _ _ (hsat _ (hmem _ hlo))
      have h2 := sat_le x _ _ (hsat _ (hmem _ hhi))
      rw [evalLin_single] at h1 h2
      exact ⟨h1, h2⟩

/-- Instance of the end-to-end scenario of the spec: one field, one
nitrogen product, dose 100 kg/ha. -/
def cfgW2 : Cfg :=
  ⟨[⟨"w", "c", 2⟩], [("c", ⟨46, 0, 0⟩)],
   [("n", ⟨46, 0, 0, 450, 0, 300⟩)], 300, 600, 0, 0⟩

def xW2 : String → String → ℚ := fun _ _ => 100

theorem C2_optimal_doses_meet_constraints_witness :
    FeasibleFor cfgW2 xW2 ∧
    ((1 - cfgW2.tol) * (46 : ℚ) ≤ supplyN cfgW2 xW2 "w" ∧
     (1 - cfgW2.tol) * (0 : ℚ) ≤ supplyP cfgW2 xW2 "w" ∧
     (1 - cfgW2.tol) * (0 : ℚ) ≤ supplyK cfgW2 xW2 "w" ∧
     (0 < cfgW2.mixmax → doseSum cfgW2 xW2 "w" ≤ cfgW2.mixmax) ∧
     (0 < cfgW2.nmax → supplyN cfgW2 xW2 "w" ≤ cfgW2.nmax) ∧
     (∀ ip ∈ cfgW2.prods, ip.2.dmin ≤ xW2 ip.1 "w" ∧ xW2 ip.1 "w" ≤ ip.2.dmax)) :=
  ⟨by decide,
   C2_optimal_doses_meet_constraints cfgW2 xW2 (by decide)
     ⟨"w", "c", 2⟩ (by decide) ⟨46, 0, 0⟩ (by decide)⟩

theorem mem_if_singleton {α : Type} (c : Prop) [Decidable c] (d e : α) :
    (e ∈ if c then [d] else []) ↔ c ∧ e = d := by
  split <;> simp_all

/-- The spec's wording of the precheck bound: the dmax-weighted sum,
replaced by mix capacity times the best single product fraction when a
positive mix ceiling makes that smaller. -/
def specBound (mixmax base best : ℚ) : ℚ :=
  if 0 < mixmax ∧ mixmax * best < base then mixmax * best else base

theorem mixBound_eq_specBound (m base best : ℚ) :
    (if 0 < m then min base (m * best) else base) = specBound m base best := by
  unfold specBound
  by_cases hm : 0 < m
  · rw [if_pos hm]
    by_cases hlt : m * best < base
    · rw [min_eq_right (le_of_lt hlt), if_pos ⟨hm, hlt⟩]
    · rw [min_eq_left (not_lt.mp hlt), if_neg (fun hc => hlt hc.2)]
  · rw [if_neg hm, if_neg (fun hc => hm hc.1)]

/-- **C8.** The precheck bounds have exactly the spec's shape: per nutrient
the dmax-weighted sum, replaced by mix capacity times the best single
fraction when a positive mix ceiling makes that smaller; only the nitrogen
bound is additionally clamped by the nitrogen ceiling (the P and K bounds
do not depend on it at all); and a nutrient diagnostic is emitted for a
field exactly when its tolerance-relaxed requirement exceeds the bound by
more than 1e-6. -/
theorem C8_precheck_bounds (cfg : Cfg) (f : Field) (r : Req) (a b : ℚ) :
    mixBoundN cfg = specBound cfg.mixmax (maxN_dmax cfg) (maxFracN cfg) ∧
    mixBoundP cfg = specBound cfg.mixmax (maxP_dmax cfg) (maxFracP cfg) ∧
    mixBoundK cfg = specBound cfg.mixmax (maxK_dmax cfg) (maxFracK cfg) ∧
    maxNBound cfg = (if 0 < cfg.nmax then min (mixBoundN cfg) cfg.nmax else mixBoundN cfg) ∧
    mixBoundP { cfg with nmax := a } = mixBoundP { cfg with nmax := b } ∧
    mixBoundK { cfg with nmax := a } = mixBoundK { cfg with nmax := b } ∧
    (Diag.nInf f.name ∈ precheckField cfg f r ↔
      (1 - cfg.tol) * r.nReq - 1 / 1000000 > maxNBound cfg) ∧
    (Diag.pInf f.name ∈ precheckField cfg f r ↔
      (1 - cfg.tol) * r.pReq - 1 / 1000000 > mixBoundP cfg) ∧
    (Diag.kInf f.name ∈ precheckField cfg f r ↔
      (1 - cfg.tol) * r.kReq - 1 / 1000000 > mixBoundK cfg) := by
  refine ⟨mixBound_eq_specBound _ _ _, mixBound_eq_specBound _ _ _,
    mixBound_eq_specBound _ _ _, rfl, rfl, rfl, ?_, ?_, ?_⟩ <;>
    simp [precheckField, List.mem_append, mem_if_singleton]

theorem precheckAux_ok_nil (cfg : Cfg) :
    ∀ fs : List Field, precheckAux cfg fs = .ok [] →
      ∀ f ∈ fs, ∀ r, lookupReq cfg f.cultivo = some r → precheckField cfg f r = [] := by
  intro fs
  induction fs with
  | nil => intro _ f hf; exact absurd hf (List.not_mem_nil f)
  | cons g t ih =>
    intro h f hf r hr
    unfold precheckAux at h
    cases hg : lookupReq cfg g.cultivo with
    | none => rw [hg] at h; cases h
    | some rg =>
      rw [hg] at h
      cases ht : precheckAux cfg t with
      | error e => rw [ht] at h; cases h
      | ok ds =>
        rw [ht] at h
        injection h with h
        have hboth := List.append_eq_nil.mp h
        rcases List.mem_cons.mp hf with rfl | hft
        · have : rg = r := Option.some.inj (hg.symm.trans hr)
          subst this
          exact hboth.1
        · exact ih (hboth.2 ▸ ht) f hft r hr

theorem precheckField_nil_conds (cfg : Cfg) (f : Field) (r : Req)
    (h : precheckField cfg f r = []) :
    ¬(0 < cfg.mixmax ∧ dminSum cfg - 1 / 1000000000 > cfg.mixmax) ∧
    ¬((1 - cfg.tol) * r.nReq - 1 / 1000000 > maxNBound cfg) ∧
    ¬((1 - cfg.tol) * r.pReq - 1 / 1000000 > mixBoundP cfg) ∧
    ¬((1 - cfg.tol) * r.kReq - 1 / 1000000 > mixBoundK cfg) := by
  refine ⟨?_, ?_, ?_, ?_⟩ <;> intro hcond
  · have hm : Diag.minMix f.name ∈ precheckField cfg f r := by
      simp [precheckField, List.mem_append, mem_if_singleton]
      exact ⟨hcond.1, by linarith [hcond.2]⟩
    rw [h] at hm; exact absurd hm (List.not_mem_nil _)
  · have hm : Diag.nInf f.name ∈ precheckField cfg f r := by
      simp [precheckField, List.mem_append, mem_if_singleton]
      linarith [hcond]
    rw [h] at hm; exact absurd hm (List.not_mem_nil _)
  · have hm : Diag.pInf f.name ∈ precheckField cfg f r := by
      simp [precheckField, List.mem_append, mem_if_singleton]
      linarith [hcond]
    rw [h] at hm; exact absurd hm (List.not_mem_nil _)
  · have hm : Diag.kInf f.name ∈ precheckField cfg f r := by
      simp [precheckField, List.mem_append, mem_if_singleton]
      linarith [hcond]
    rw [h] at hm; exact absurd hm (List.not_mem_nil _)

/-- Configuration rejected by the precheck although the LP is feasible:
a second product with a negative nitrogen percentage (accepted by the
loader, which only coerces numerics) makes the dmax-weighted sum
underestimate the best achievable supply. -/
def cfgC4 : Cfg :=
  ⟨[⟨"f1", "c", 1⟩], [("c", ⟨4, 0, 0⟩)],
   [("a", ⟨50, 0, 0, 1, 0, 10⟩), ("b", ⟨-30, 0, 0, 1, 0, 10⟩)], 0, 0, 0, 0⟩

def xC4 : String → String → ℚ := fun i _ => if i = "a" then 10 else 0

/-- **C4.** The precheck is conservative in the claimed direction only as
an asymmetry: there is a configuration it rejects although the full LP is
feasible (witnessed by `cfgC4`), and whenever it passes, every condition
it checks really holds for every field. -/
theorem C4_precheck_asymmetry :
    (precheckAux cfgC4 cfgC4.potreros = .ok [Diag.nInf "f1"] ∧
     FeasibleFor cfgC4 xC4 ∧ NonNegOn cfgC4 xC4) ∧
    (∀ cfg : Cfg, precheckAux cfg cfg.potreros = .ok [] →
      ∀ f ∈ cfg.potreros, ∀ r, lookupReq cfg f.cultivo = some r →
        ¬(0 < cfg.mixmax ∧ dminSum cfg - 1 / 1000000000 > cfg.mixmax) ∧
        ¬((1 - cfg.tol) * r.nReq - 1 / 1000000 > maxNBound cfg) ∧
        ¬((1 - cfg.tol) * r.pReq - 1 / 1000000 > mixBoundP cfg) ∧
        ¬((1 - cfg.tol) * r.kReq - 1 / 1000000 > mixBoundK cfg)) := by
  constructor
  · exact ⟨by decide, by decide, by decide⟩
  · intro cfg h f hf r hr
    exact precheckField_nil_conds cfg f r (precheckAux_ok_nil cfg cfg.potreros h f hf r hr)

def cfgW4 : Cfg :=
  ⟨[⟨"g", "c", 1⟩], [("c", ⟨0, 0, 0⟩)], [("a", ⟨10, 0, 0, 100, 0, 100⟩)], 0, 0, 1/50, 0⟩

theorem C4_precheck_asymmetry_witness :
    precheckAux cfgW4 cfgW4.potreros = .ok [] ∧
    (¬(0 < cfgW4.mixmax ∧ dminSum cfgW4 - 1 / 1000000000 > cfgW4.mixmax) ∧
     ¬((1 - cfgW4.tol) * (0 : ℚ) - 1 / 1000000 > maxNBound cfgW4) ∧
     ¬((1 - cfgW4.tol) * (0 : ℚ) - 1 / 1000000 > mixBoundP cfgW4) ∧
     ¬((1 - cfgW4.tol) * (0 : ℚ) - 1 / 1000000 > mixBoundK cfgW4)) :=
  ⟨by decide,
   C4_precheck_asymmetry.2 cfgW4 (by decide) ⟨"g", "c", 1⟩ (by decide) ⟨0, 0, 0⟩ (by decide)⟩

theorem precheckAux_ok_of_lookup (cfg : Cfg) :
    ∀ fs : List Field, (∀ f ∈ fs, (lookupReq cfg f.cultivo).isSome) →
      ∃ ds, precheckAux cfg fs = .ok ds := by
  intro fs
  induction fs with
  | nil => intro _; exact ⟨[], rfl⟩
  | cons g t ih =>
    intro hlk
    obtain ⟨rg, hrg⟩ := Option.isSome_iff_exists.mp (hlk g (List.mem_cons_self g t))
    obtain ⟨ds, hds⟩ := ih (fun f hf => hlk f (List.mem_cons_of_mem g hf))
    refine ⟨precheckField cfg g rg ++ ds, ?_⟩
    unfold precheckAux
    rw [hrg, hds]

/-- **C5.** With at least one field, a positive mix ceiling and the sum of
minimum doses exceeding it beyond the 1e-9 slack (and every crop present,
so the lookups of lines 116-118 do not raise), the precheck returns a
non-empty diagnostic list containing the minimum-dose diagnostic, and the
whole pipeline aborts with those diagnostics no matter what the solver
would do: no LP solve is consulted. -/
theorem C5_minmix_aborts_before_solve (cfg : Cfg)
    (hne : cfg.potreros ≠ [])
    (hmx : 0 < cfg.mixmax)
    (hsum : dminSum cfg - 1 / 1000000000 > cfg.mixmax)
    (hlk : ∀ f ∈ cfg.potreros, (lookupReq cfg f.cultivo).isSome) :
    ∃ ds, precheckAux cfg cfg.potreros = .ok ds ∧ ds ≠ [] ∧
      (∃ f ∈ cfg.potreros, Diag.minMix f.name ∈ ds) ∧
      ∀ solve, runPipeline goodCols cfg solve = .error (.fatal ds) := by
  cases hp : cfg.potreros with
  | nil => exact absurd hp hne
  | cons g t =>
    have hlk' : ∀ f ∈ g :: t, (lookupReq cfg f.cultivo).isSome := hp ▸ hlk
    obtain ⟨rg, hrg⟩ := Option.isSome_iff_exists.mp (hlk' g (List.mem_cons_self g t))
    obtain ⟨ds0, hds0⟩ := precheckAux_ok_of_lookup cfg t
      (fun f hf => hlk' f (List.mem_cons_of_mem g hf))
    have hfield : precheckField cfg g rg = Diag.minMix g.name ::
        ((if (1 - cfg.tol) * rg.nReq - 1 / 1000000 > maxNBound cfg
          then [Diag.nInf g.name] else []) ++
         (if (1 - cfg.tol) * rg.pReq - 1 / 1000000 > mixBoundP cfg
          then [Diag.pInf g.name] else []) ++
         (if (1 - cfg.tol) * rg.kReq - 1 / 1000000 > mixBoundK cfg
          then [Diag.kInf g.name] else [])) := by
      unfold precheckField
      rw [if_pos ⟨hmx, hsum⟩]
      simp
    have hpre : precheckAux cfg (g :: t) = .ok (precheckField cfg g rg ++ ds0) := by
      unfold precheckAux
      rw [hrg, hds0]
    refine ⟨precheckField cfg g rg ++ ds0, hp ▸ hpre, ?_, ?_, ?_⟩
    · rw [hfield]; simp
    · exact ⟨g, hp ▸ List.mem_cons_self g t,
        List.mem_append_left _ (hfield ▸ List.mem_cons_self _ _)⟩
    · intro solve
      have hload : loadStage goodCols = .ok () := rfl
      have hemp : (precheckField cfg g rg ++ ds0).isEmpty = false := by
        rw [hfield]; rfl
      unfold runPipeline runSolver
      rw [hload, hp, hpre]
      dsimp only
      rw [hemp]
      rfl

def cfgW5 : Cfg :=
  ⟨[⟨"f1", "c", 10⟩], [("c", ⟨0, 0, 0⟩)],
   [("a", ⟨0, 0, 0, 0, 50, 1000⟩), ("b", ⟨0, 0, 0, 0, 80, 1000⟩),
    ("d", ⟨0, 0, 0, 0, 100, 1000⟩)], 0, 200, 0, 0⟩

theorem C5_minmix_aborts_before_solve_witness :
    (0 : ℚ) < 200 ∧ dminSum cfgW5 - 1 / 1000000000 > 200 ∧
    ∃ ds, precheckAux cfgW5 cfgW5.potreros = .ok ds ∧ ds ≠ [] ∧
      (∃ f ∈ cfgW5.potreros, Diag.minMix f.name ∈ ds) ∧
      ∀ solve, runPipeline goodCols cfgW5 solve = .error (.fatal ds) :=
  ⟨by decide, by decide,
   C5_minmix_aborts_before_solve cfgW5 (by decide) (by decide) (by decide) (by decide)⟩

theorem countP_precheckField (cfg : Cfg) (f : Field) (r : Req)
    (hc : 0 < cfg.mixmax ∧ dminSum cfg - 1 / 1000000000 > cfg.mixmax) :
    (precheckField cfg f r).countP Diag.isMinMix = 1 := by
  unfold precheckField
  rw [if_pos hc]
  simp only [List.countP_append, List.cons_append, List.countP_cons, List.nil_append]
  have h0 : ∀ (c : Prop) [Decidable c] (d : Diag), Diag.isMinMix d = false →
      (if c then [d] else []).countP Diag.isMinMix = 0 := by
    intro c _ d hd
    split <;> simp [List.countP_cons, hd, List.countP_nil]
  rw [h0 _ (Diag.nInf f.name) rfl, h0 _ (Diag.pInf f.name) rfl,
    h0 _ (Diag.kInf f.name) rfl]
  simp [Diag.isMinMix, List.countP_nil]

theorem precheckAux_countP (cfg : Cfg)
    (hmx : 0 < cfg.mixmax) (hsum : dminSum cfg - 1 / 1000000000 > cfg.mixmax) :
    ∀ fs ds, precheckAux cfg fs = .ok ds →
      ds.countP Diag.isMinMix = fs.length := by
  intro fs
  induction fs with
  | nil =>
    intro ds h
    injection h with h
    subst h; rfl
  | cons g t ih =>
    intro ds h
    unfold precheckAux at h
    cases hg : lookupReq cfg g.cultivo with
    | none => rw [hg] at h; cases h
    | some rg =>
      rw [hg] at h
      cases ht : precheckAux cfg t with
      | error e => rw [ht] at h; cases h
      | ok ds0 =>
        rw [ht] at h
        injection h with h
        subst h
        rw [List.countP_append, countP_precheckField cfg g rg ⟨hmx, hsum⟩, ih ds0 ht]
        simp [List.length_cons, Nat.add_comm]

/-- **C10.** The minimum-dose-sum test lives inside the per-field loop:
with an empty fields table the precheck emits nothing (whatever the
products and ceilings are), and with n fields it emits the minimum-dose
diagnostic exactly n times, once per field. -/
theorem C10_minmix_once_per_field :
    (∀ cfg : Cfg, precheckAux cfg [] = .ok []) ∧
    (∀ (cfg : Cfg) (ds : List Diag),
      0 < cfg.mixmax → dminSum cfg - 1 / 1000000000 > cfg.mixmax →
      precheckAux cfg cfg.potreros = .ok ds →
      ds.countP Diag.isMinMix = cfg.potreros.length) := by
  constructor
  · intro cfg; rfl
  · intro cfg ds hmx hsum h
    exact precheckAux_countP cfg hmx hsum cfg.potreros ds h

def cfgW10 : Cfg :=
  ⟨[⟨"f1", "c", 10⟩, ⟨"f2", "c", 20⟩], [("c", ⟨0, 0, 0⟩)],
   [("a", ⟨0, 0, 0, 0, 300, 1000⟩)], 0, 200, 0, 0⟩

theorem C10_minmix_once_per_field_witness :
    precheckAux cfgW10 [] = .ok [] ∧
    [Diag.minMix "f1", Diag.minMix "f2"].countP Diag.isMinMix = 2 ∧
    precheckAux cfgW10 cfgW10.potreros = .ok [Diag.minMix "f1", Diag.minMix "f2"] :=
  ⟨C10_minmix_once_per_field.1 cfgW10,
   C10_minmix_once_per_field.2 cfgW10 [Diag.minMix "f1", Diag.minMix "f2"]
     (by decide) (by decide) (by decide),
   by decide⟩

theorem find_of_nodup {α : Type} (key : α → String) :
    ∀ l : List α, (l.map key).Nodup → ∀ a ∈ l,
      l.find? (fun b => key b == key a) = some a := by
  intro l
  induction l with
  | nil => intro _ a ha; exact absurd ha (List.not_mem_nil a)
  | cons g t ih =>
    intro hnd a ha
    rw [List.map_cons, List.nodup_cons] at hnd
    rcases List.mem_cons.mp ha with rfl | hat
    · simp [List.find?_cons]
    · have hne : (key g == key a) = false := by
        refine beq_eq_false_iff_ne.mpr ?_
        intro he
        exact hnd.1 (he ▸ List.mem_map_of_mem key hat)
      simp only [List.find?_cons, hne]
      exact ih hnd.2 a hat

theorem supOf_of_mem (cfg : Cfg) (hfn : (cfg.potreros.map Field.name).Nodup)
    (f : Field) (hf : f ∈ cfg.potreros) : supOf cfg f.name = f.superficie := by
  unfold supOf
  rw [find_of_nodup Field.name cfg.potreros hfn f hf]

theorem precioOf_of_mem (cfg : Cfg) (hpn : (cfg.prods.map Prod.fst).Nodup)
    (ip : String × Product) (hip : ip ∈ cfg.prods) : precioOf cfg ip.1 = ip.2.precio := by
  unfold precioOf
  rw [find_of_nodup Prod.fst cfg.prods hpn ip hip]

theorem tableCost_append (cfg : Cfg) (rs1 rs2 : List Row) :
    tableCost cfg (rs1 ++ rs2) = tableCost cfg rs1 + tableCost cfg rs2 := by
  simp [tableCost]

theorem rowsCost_inner (cfg : Cfg) (x : String → String → ℚ)
    (hfn : (cfg.potreros.map Field.name).Nodup)
    (ip : String × Product) (hprecio : precioOf cfg ip.1 = ip.2.precio)
    (hx : ∀ f ∈ cfg.potreros, x ip.1 f.name ≠ 0 →
      1 / 1000000 < x ip.1 f.name ∧ pyRound2 (x ip.1 f.name) = x ip.1 f.name) :
    ∀ fs : List Field, (∀ f ∈ fs, f ∈ cfg.potreros) →
      tableCost cfg ((fs.filter (fun f => decide (1 / 1000000 < x ip.1 f.name))).map
        (fun f => ⟨f.name, ip.1, pyRound2 (x ip.1 f.name)⟩)) =
      (fs.map (fun f =>
        if x ip.1 f.name ≠ 0 then pairCost cfg ip.2 f (x ip.1 f.name) else 0)).sum := by
  intro fs
  induction fs with
  | nil => intro _; rfl
  | cons g t ih =>
    intro hsub
    have hg : g ∈ cfg.potreros := hsub g (List.mem_cons_self g t)
    have ht : ∀ f ∈ t, f ∈ cfg.potreros := fun f hf => hsub f (List.mem_cons_of_mem g hf)
    rw [List.map_cons, List.sum_cons]
    by_cases hz : x ip.1 g.name = 0
    · have hfilter : (decide (1 / 1000000 < x ip.1 g.name)) = false := by
        rw [hz]; norm_num
      rw [List.filter_cons, hfilter, if_neg (by simp), ih ht,
        if_neg (not_not_intro hz), zero_add]
    · obtain ⟨hgt, hround⟩ := hx g hg hz
      have hfilter : (decide (1 / 1000000 < x ip.1 g.name)) = true := decide_eq_true hgt
      rw [List.filter_cons, hfilter, if_pos rfl, List.map_cons]
      have hcons : tableCost cfg ((⟨g.name, ip.1, pyRound2 (x ip.1 g.name)⟩ : Row) ::
          (t.filter (fun f => decide (1 / 1000000 < x ip.1 f.name))).map
            (fun f => ⟨f.name, ip.1, pyRound2 (x ip.1 f.name)⟩)) =
          rowCost cfg ⟨g.name, ip.1, pyRound2 (x ip.1 g.name)⟩ +
          tableCost cfg ((t.filter (fun f => decide (1 / 1000000 < x ip.1 f.name))).map
            (fun f => ⟨f.name, ip.1, pyRound2 (x ip.1 f.name)⟩)) := by
        simp [tableCost]
      rw [hcons, ih ht, if_pos hz]
      have hrow : rowCost cfg ⟨g.name, ip.1, pyRound2 (x ip.1 g.name)⟩ =
          pairCost cfg ip.2 g (x ip.1 g.name) := by
        unfold rowCost pairCost
        rw [show (⟨g.name, ip.1, pyRound2 (x ip.1 g.name)⟩ : Row).kg_ha =
              pyRound2 (x ip.1 g.name) from rfl]
        rw [hround,
          show (⟨g.name, ip.1, pyRound2 (x ip.1 g.name)⟩ : Row).potrero = g.name from rfl,
          show (⟨g.name, ip.1, pyRound2 (x ip.1 g.name)⟩ : Row).producto = ip.1 from rfl,
          supOf_of_mem cfg hfn g hg, hprecio]
      rw [hrow]

theorem tableCost_rowsOut (cfg : Cfg) (x : String → String → ℚ)
    (hfn : (cfg.potreros.map Field.name).Nodup)
    (hpn : (cfg.prods.map Prod.fst).Nodup)
    (hx : ∀ ip ∈ cfg.prods, ∀ f ∈ cfg.potreros, x ip.1 f.name ≠ 0 →
      1 / 1000000 < x ip.1 f.name ∧ pyRound2 (x ip.1 f.name) = x ip.1 f.name) :
    tableCost cfg (rowsOut cfg x) = costoTotal cfg x := by
  unfold rowsOut costoTotal
  suffices h : ∀ ps : List (String × Product), (∀ ip ∈ ps, ip ∈ cfg.prods) →
      tableCost cfg (ps.flatMap (fun ip =>
        (cfg.potreros.filter (fun f => decide (1 / 1000000 < x ip.1 f.name))).map
          (fun f => ⟨f.name, ip.1, pyRound2 (x ip.1 f.name)⟩))) =
      (ps.map (fun ip => (cfg.potreros.map (fun f =>
        if x ip.1 f.name ≠ 0 then pairCost cfg ip.2 f (x ip.1 f.name) else 0)).sum)).sum by
    exact h cfg.prods (fun _ hm => hm)
  intro ps
  induction ps with
  | nil => intro _; rfl
  | cons ip pt ih =>
    intro hsub
    have hip : ip ∈ cfg.prods := hsub ip (List.mem_cons_self ip pt)
    rw [List.flatMap_cons, tableCost_append, List.map_cons, List.sum_cons,
      rowsCost_inner cfg x hfn ip (precioOf_of_mem cfg hpn ip hip)
        (fun f hf => hx ip hip f hf) cfg.potreros (fun _ hm => hm),
      ih (fun q hq => hsub q (List.mem_cons_of_mem ip hq))]

/-- A dose forced to 0.004 kg/ha: above the 1e-6 output filter, but
rounding to 0.00 in the emitted table, while the summary uses the raw
value. -/
def cfgC1 : Cfg :=
  ⟨[⟨"f", "c", 1000⟩], [("c", ⟨0, 0, 0⟩)],
   [("u", ⟨0, 0, 0, 1000000, 1/250, 1/250⟩)], 0, 0, 1/50, 0⟩

def xC1 : String → String → ℚ := fun _ _ => 1/250

/-- **C1 counterexample.** A run the script accepts (precheck passes and
the dose vector satisfies every built constraint — it is the unique
feasible point, hence the Optimal one) whose written summary integer is
4000 while the cost recomputed from the emitted table is 0. -/
theorem C1_cex_summary_differs_from_table :
    precheckAux cfgC1 cfgC1.potreros = .ok [] ∧
    FeasibleFor cfgC1 xC1 ∧ NonNegOn cfgC1 xC1 ∧
    summaryInt cfgC1 xC1 = 4000 ∧
    pyRoundInt (tableCost cfgC1 (rowsOut cfgC1 xC1)) = 0 ∧
    summaryInt cfgC1 xC1 ≠ pyRoundInt (tableCost cfgC1 (rowsOut cfgC1 xC1)) :=
  ⟨by decide, by decide, by decide, by decide, by decide, by decide⟩

/-- **C1 (amended).** The summary integer is the rounding of the cost
recomputed from the raw, unrounded doses over every nonzero pair; it
equals the table-based recomputation whenever every nonzero dose exceeds
1e-6 and is exact at two decimals (and the table is nonempty, so the
script reaches the summary write at all). -/
theorem C1_summary_matches_table (cfg : Cfg) (x : String → String → ℚ)
    (hfn : (cfg.potreros.map Field.name).Nodup)
    (hpn : (cfg.prods.map Prod.fst).Nodup)
    (hx : ∀ ip ∈ cfg.prods, ∀ f ∈ cfg.potreros, x ip.1 f.name ≠ 0 →
      1 / 1000000 < x ip.1 f.name ∧ pyRound2 (x ip.1 f.name) = x ip.1 f.name)
    (_hrows : rowsOut cfg x ≠ []) :
    pyRoundInt (tableCost cfg (rowsOut cfg x)) = summaryInt cfg x := by
  rw [tableCost_rowsOut cfg x hfn hpn hx]
  rfl

def cfgW1 : Cfg :=
  ⟨[⟨"h", "c", 4⟩], [("c", ⟨0, 0, 0⟩)], [("q", ⟨0, 0, 0, 2000, 0, 10⟩)], 0, 0, 0, 500⟩

def xW1 : String → String → ℚ := fun _ _ => 5/2

theorem C1_summary_matches_table_witness :
    ((cfgW1.potreros.map Field.name).Nodup ∧ (cfgW1.prods.map Prod.fst).Nodup ∧
     (∀ ip ∈ cfgW1.prods, ∀ f ∈ cfgW1.potreros, xW1 ip.1 f.name ≠ 0 →
       1 / 1000000 < xW1 ip.1 f.name ∧ pyRound2 (xW1 ip.1 f.name) = xW1 ip.1 f.name) ∧
     rowsOut cfgW1 xW1 ≠ []) ∧
    pyRoundInt (tableCost cfgW1 (rowsOut cfgW1 xW1)) = summaryInt cfgW1 xW1 :=
  ⟨⟨by decide, by decide, by decide, by decide⟩,
   C1_summary_matches_table cfgW1 xW1 (by decide) (by decide) (by decide) (by decide)⟩

/-- A field growing a crop missing from the requirement table. -/
def cfgC3 : Cfg :=
  ⟨[⟨"L1", "trigo", 10⟩], [("maiz", ⟨1, 1, 1⟩)],
   [("urea", ⟨46, 0, 0, 450000, 0, 300⟩)], 0, 0, 1/50, 0⟩

/-- **C3 (code bug).** With an unknown crop the run dies inside the
precheck lookup (`reqs.loc`, solver.py line 116) with an uncaught
`KeyError` before the script's own unknown-crop diagnostic of lines
181-182 can run: no readable message naming crop and field is printed,
whatever the solver would have answered. -/
theorem C3_unknown_crop_uncaught_keyerror :
    ∀ solve, runPipeline goodCols cfgC3 solve = .error (.exc "KeyError: trigo") :=
  fun _ => rfl

/-- Requirement headers without the key column `cultivo`. -/
def rcC6 : RawCols :=
  ⟨["potrero", "cultivo", "superficie_ha"],
   ["N_req_kg_ha", "P2O5_req_kg_ha", "K2O_req_kg_ha"],
   ["producto", "N_pct", "P2O5_pct", "K2O_pct", "precio_CLP_ton",
    "dosis_min_kg_ha", "dosis_max_kg_ha"]⟩

/-- Product headers without the key column `producto`. -/
def rcC6p : RawCols :=
  ⟨["potrero", "cultivo", "superficie_ha"],
   ["cultivo", "N_req_kg_ha", "P2O5_req_kg_ha", "K2O_req_kg_ha"],
   ["N_pct", "P2O5_pct", "K2O_pct", "precio_CLP_ton",
    "dosis_min_kg_ha", "dosis_max_kg_ha"]⟩

/-- **C6 (code bug).** A missing key column (`cultivo` of the requirement
table, `producto` of the product table) aborts in `set_index`
(solver.py lines 59-60) with an uncaught `KeyError`: the column
validation that would print the diagnostic naming column and table never
runs for these columns. -/
theorem C6_missing_key_column_uncaught_keyerror :
    loadStage rcC6 = .error (.exc "KeyError: cultivo") ∧
    loadStage rcC6p = .error (.exc "KeyError: producto") ∧
    (∀ (cfg : Cfg) (solve : List ((String × String) × ℚ) → List Constr → SolverOut),
      runPipeline rcC6 cfg solve = .error (.exc "KeyError: cultivo")) :=
  ⟨rfl, rfl, fun _ _ => rfl⟩

/-- A failing run: field `P1` references the crop `avena`, absent from
the requirement table. -/
def cfgC7 : Cfg :=
  ⟨[⟨"P1", "avena", 5⟩], [("trigo", ⟨100, 50, 0⟩)],
   [("urea", ⟨46, 0, 0, 450000, 0, 300⟩)], 0, 0, 1/50, 0⟩

/-- **C7 (code bug).** The unknown-crop failure mode terminates the run
with an uncaught exception instead of a printed human-readable
diagnostic; the pipeline produces no output value (hence no output
files), but the claimed diagnostic never appears. -/
theorem C7_failing_run_without_diagnostic :
    ∀ solve, runPipeline goodCols cfgC7 solve = .error (.exc "KeyError: avena") :=
  fun _ => rfl

theorem precheckField_mix0 (cfg : Cfg) (h : cfg.mixmax ≤ 0) (f : Field) (r : Req) :
    precheckField { cfg with mixmax := 0 } f r = precheckField cfg f r := by
  have hneg : ¬ 0 < cfg.mixmax := not_lt.mpr h
  simp [precheckField, maxNBound, mixBoundN, mixBoundP, mixBoundK,
    maxN_dmax, maxP_dmax, maxK_dmax, maxFracN, maxFracP, maxFracK, dminSum, hneg]

theorem precheckAux_mix0 (cfg : Cfg) (h : cfg.mixmax ≤ 0) :
    ∀ fs, precheckAux { cfg with mixmax := 0 } fs = precheckAux cfg fs := by
  intro fs
  induction fs with
  | nil => rfl
  | cons f t ih =>
    unfold precheckAux
    rw [show lookupReq { cfg with mixmax := 0 } f.cultivo = lookupReq cfg f.cultivo from rfl]
    cases hg : lookupReq cfg f.cultivo with
    | none => rfl
    | some r =>
      dsimp only
      rw [ih, precheckField_mix0 cfg h f r]

theorem buildField_mix0 (cfg : Cfg) (h : cfg.mixmax ≤ 0) (f : Field) (r : Req) :
    buildField { cfg with mixmax := 0 } f r = buildField cfg f r := by
  have hneg : ¬ 0 < cfg.mixmax := not_lt.mpr h
  simp [buildField, termsN, termsP, termsK, termsOne, hneg]

theorem buildAux_mix0 (cfg : Cfg) (h : cfg.mixmax ≤ 0) :
    ∀ fs, buildAux { cfg with mixmax := 0 } fs = buildAux cfg fs := by
  intro fs
  induction fs with
  | nil => rfl
  | cons f t ih =>
    unfold buildAux
    rw [show lookupReq { cfg with mixmax := 0 } f.cultivo = lookupReq cfg f.cultivo from rfl]
    cases hg : lookupReq cfg f.cultivo with
    | none => rfl
    | some r =>
      dsimp only
      rw [ih, buildField_mix0 cfg h f r]

theorem precheckField_nmax0 (cfg : Cfg) (h : cfg.nmax ≤ 0) (f : Field) (r : Req) :
    precheckField { cfg with nmax := 0 } f r = precheckField cfg f r := by
  have hneg : ¬ 0 < cfg.nmax := not_lt.mpr h
  simp [precheckField, maxNBound, mixBoundN, mixBoundP, mixBoundK,
    maxN_dmax, maxP_dmax, maxK_dmax, maxFracN, maxFracP, maxFracK, dminSum, hneg]

theorem precheckAux_nmax0 (cfg : Cfg) (h : cfg.nmax ≤ 0) :
    ∀ fs, precheckAux { cfg with nmax := 0 } fs = precheckAux cfg fs := by
  intro fs
  induction fs with
  | nil => rfl
  | cons f t ih =>
    unfold precheckAux
    rw [show lookupReq { cfg with nmax := 0 } f.cultivo = lookupReq cfg f.cultivo from rfl]
    cases hg : lookupReq cfg f.cultivo with
    | none => rfl
    | some r =>
      dsimp only
      rw [ih, precheckField_nmax0 cfg h f r]

theorem buildField_nmax0 (cfg : Cfg) (h : cfg.nmax ≤ 0) (f : Field) (r : Req) :
    buildField { cfg with nmax := 0 } f r = buildField cfg f r := by
  have hneg : ¬ 0 < cfg.nmax := not_lt.mpr h
  simp [buildField, termsN, termsP, termsK, termsOne, hneg]

theorem buildAux_nmax0 (cfg : Cfg) (h : cfg.nmax ≤ 0) :
    ∀ fs, buildAux { cfg with nmax := 0 } fs = buildAux cfg fs := by
  intro fs
  induction fs with
  | nil => rfl
  | cons f t ih =>
    unfold buildAux
    rw [show lookupReq { cfg with nmax := 0 } f.cultivo = lookupReq cfg f.cultivo from rfl]
    cases hg : lookupReq cfg f.cultivo with
    | none => rfl
    | some r =>
      dsimp only
      rw [ih, buildField_nmax0 cfg h f r]

theorem precheckAux_cap0 (cfg : Cfg) :
    ∀ fs, precheckAux { cfg with costoap := 0 } fs = precheckAux cfg fs := by
  intro fs
  induction fs with
  | nil => rfl
  | cons f t ih =>
    unfold precheckAux
    rw [show lookupReq { cfg with costoap := 0 } f.cultivo = lookupReq cfg f.cultivo from rfl]
    cases hg : lookupReq cfg f.cultivo with
    | none => rfl
    | some r =>
      dsimp only
      rw [ih, show precheckField { cfg with costoap := 0 } f r = precheckField cfg f r from rfl]

theorem buildAux_cap0 (cfg : Cfg) :
    ∀ fs, buildAux { cfg with costoap := 0 } fs = buildAux cfg fs := by
  intro fs
  induction fs with
  | nil => rfl
  | cons f t ih =>
    unfold buildAux
    rw [show lookupReq { cfg with costoap := 0 } f.cultivo = lookupReq cfg f.cultivo from rfl]
    cases hg : lookupReq cfg f.cultivo with
    | none => rfl
    | some r =>
      dsimp only
      rw [ih, show buildField { cfg with costoap := 0 } f r = buildField cfg f r from rfl]

theorem objTerms_cap0 (cfg : Cfg) (h : cfg.costoap ≤ 0) :
    objTerms { cfg with costoap := 0 } = objTerms cfg := by
  have hneg : ¬ 0 < cfg.costoap := not_lt.mpr h
  simp [objTerms, hneg]

theorem extract_cap0 (cfg : Cfg) (h : cfg.costoap ≤ 0) :
    extract { cfg with costoap := 0 } = extract cfg := by
  have hneg : ¬ 0 < cfg.costoap := not_lt.mpr h
  funext x
  simp [extract, rowsOut, summaryInt, costoTotal, pairCost, hneg]

theorem runSolver_congr (cfg cfg' : Cfg)
    (hpot : cfg'.potreros = cfg.potreros)
    (h1 : ∀ fs, precheckAux cfg' fs = precheckAux cfg fs)
    (h2 : ∀ fs, buildAux cfg' fs = buildAux cfg fs)
    (h3 : objTerms cfg' = objTerms cfg)
    (h4 : extract cfg' = extract cfg) :
    ∀ solve, runSolver cfg' solve = runSolver cfg solve := by
  intro solve
  unfold runSolver
  rw [hpot, h1, h2, h3, h4]

theorem runPipeline_congr (rc : RawCols) (cfg cfg' : Cfg)
    (h : ∀ solve, runSolver cfg' solve = runSolver cfg solve) :
    ∀ solve, runPipeline rc cfg' solve = runPipeline rc cfg solve := by
  intro solve
  unfold runPipeline
  rw [h solve]

/-- **C9.** A negative mix ceiling, nitrogen ceiling or application cost
fails the `> 0` guards exactly as 0 does, so the whole pipeline — precheck,
constraint construction, objective terms and result extraction — behaves
identically to the parameter being disabled. -/
theorem C9_negative_params_equal_zero :
    (∀ (rc : RawCols) (cfg : Cfg) solve, cfg.mixmax < 0 →
       runPipeline rc cfg solve = runPipeline rc { cfg with mixmax := 0 } solve) ∧
    (∀ (rc : RawCols) (cfg : Cfg) solve, cfg.nmax < 0 →
       runPipeline rc cfg solve = runPipeline rc { cfg with nmax := 0 } solve) ∧
    (∀ (rc : RawCols) (cfg : Cfg) solve, cfg.costoap < 0 →
       runPipeline rc cfg solve = runPipeline rc { cfg with costoap := 0 } solve) := by
  refine ⟨?_, ?_, ?_⟩ <;> intro rc cfg solve h
  · exact (runPipeline_congr rc cfg { cfg with mixmax := 0 }
      (runSolver_congr cfg { cfg with mixmax := 0 } rfl
        (precheckAux_mix0 cfg (le_of_lt h)) (buildAux_mix0 cfg (le_of_lt h)) rfl rfl)
      solve).symm
  · exact (runPipeline_congr rc cfg { cfg with nmax := 0 }
      (runSolver_congr cfg { cfg with nmax := 0 } rfl
        (precheckAux_nmax0 cfg (le_of_lt h)) (buildAux_nmax0 cfg (le_of_lt h)) rfl rfl)
      solve).symm
  · exact (runPipeline_congr rc cfg { cfg with costoap := 0 }
      (runSolver_congr cfg { cfg with costoap := 0 } rfl
        (precheckAux_cap0 cfg) (buildAux_cap0 cfg)
        (objTerms_cap0 cfg (le_of_lt h)) (extract_cap0 cfg (le_of_lt h)))
      solve).symm

def cfgW9a : Cfg :=
  ⟨[⟨"p", "c", 1⟩], [("c", ⟨1, 0, 0⟩)], [("a", ⟨50, 0, 0, 100, 0, 10⟩)], 0, -5, 0, 0⟩

def cfgW9b : Cfg :=
  ⟨[⟨"p", "c", 1⟩], [("c", ⟨1, 0, 0⟩)], [("a", ⟨50, 0, 0, 100, 0, 10⟩)], -3, 0, 0, 0⟩

def cfgW9c : Cfg :=
  ⟨[⟨"p", "c", 1⟩], [("c", ⟨1, 0, 0⟩)], [("a", ⟨50, 0, 0, 100, 0, 10⟩)], 0, 0, 0, -2⟩

def solveW : List ((String × String) × ℚ) → List Constr → SolverOut :=
  fun _ _ => SolverOut.optimal (fun _ _ => 3)

theorem C9_negative_params_equal_zero_witness :
    (cfgW9a.mixmax < 0 ∧
     runPipeline goodCols cfgW9a solveW = runPipeline goodCols { cfgW9a with mixmax := 0 } solveW) ∧
    (cfgW9b.nmax < 0 ∧
     runPipeline goodCols cfgW9b solveW = runPipeline goodCols { cfgW9b with nmax := 0 } solveW) ∧
    (cfgW9c.costoap < 0 ∧
     runPipeline goodCols cfgW9c solveW = runPipeline goodCols { cfgW9c with costoap := 0 } solveW) :=
  ⟨⟨by decide, C9_negative_params_equal_zero.1 goodCols cfgW9a solveW (by decide)⟩,
   ⟨by decide, C9_negative_params_equal_zero.2.1 goodCols cfgW9b solveW (by decide)⟩,
   ⟨by decide, C9_negative_params_equal_zero.2.2 goodCols cfgW9c solveW (by decide)⟩⟩

end Fertilizantes
